import Mathlib

/-!
Shallow embedding of the deterministic capture scheduler of `src/index.js`
(timesnap). Times are modelled as rationals (JS numbers on the inputs of
interest are exact). Page interaction (`page.$` selector queries) is modelled
as a boolean oracle indexed by the query count; fallible host steps are
modelled explicitly where a claim needs them.
-/

namespace Timesnap

/-- `defaultDuration = 5` (src/index.js line 35). -/
def defaultDuration : ℚ := 5

/-- `defaultFPS = 60` (src/index.js line 36). -/
def defaultFPS : ℚ := 60

/-- JS truthiness of an optional numeric config value: absent or `0` is falsy.
Used for `config.frames`, `config.duration`, `config.fps`,
`config.maximumAnimationFrameDuration`. -/
def isTruthy : Option ℚ → Bool
  | none => false
  | some x => decide (x ≠ 0)

/-- Resolution of `framesToCapture` and `fps` from the config
(src/index.js lines 61-79): an explicit (truthy) `frames` wins, with `fps`
taken as given, else `frames / duration`, else 60; otherwise `fps` defaults
to 60 and the count is `duration * fps` with `duration` defaulting to 5. -/
def resolveFramesFps (frames duration fps : Option ℚ) : ℚ × ℚ :=
  if isTruthy frames then
    let framesToCapture := frames.getD 0
    if isTruthy fps then
      (framesToCapture, fps.getD 0)
    else if isTruthy duration then
      (framesToCapture, framesToCapture / duration.getD 0)
    else
      (framesToCapture, defaultFPS)
  else
    let fps' := if isTruthy fps then fps.getD 0 else defaultFPS
    if isTruthy duration then
      (duration.getD 0 * fps', fps')
    else
      (defaultDuration * fps', fps')

/-- `frameDuration = 1000 / fps` (src/index.js line 81). -/
def frameDurationOf (fps : ℚ) : ℚ := 1000 / fps

/-- The default `frameNumToTime` (src/index.js lines 83-87):
`(frameCount - 1) * frameDuration`, ignoring the second argument. -/
def defaultFrameNumToTime (fps : ℚ) (frameCount : ℕ) (_total : ℕ) : ℚ :=
  ((frameCount : ℚ) - 1) * frameDurationOf fps

/-- Marker kind: `'Capture'` or `'Only Animate'` (src/index.js lines 211, 224). -/
inductive MType
  | Capture
  | OnlyAnimate
deriving DecidableEq, Repr

/-- A marker before its `id` is assigned: `{ time, type, data }` as passed to
`addMarker` (src/index.js line 130). `frameCount` models `data.frameCount`. -/
structure MarkerBase where
  time : ℚ
  type : MType
  frameCount : Option ℕ := none
deriving DecidableEq, Repr

/-- A marker as stored: `{ time, type, data, id: markerId++ }`
(src/index.js line 131). -/
structure Marker where
  time : ℚ
  type : MType
  frameCount : Option ℕ
  id : ℕ
deriving DecidableEq, Repr

/-- `addMarker` tags each pushed marker with `markerId++`: starting from
counter value `n`, consecutive markers get ids `n, n+1, ...`
(src/index.js lines 129-131). -/
def assignIdsFrom (n : ℕ) : List MarkerBase → List Marker
  | [] => []
  | b :: rest => ⟨b.time, b.type, b.frameCount, n⟩ :: assignIdsFrom (n + 1) rest

/-- `markerId` starts at 0, so the `i`-th created marker gets id `i`. -/
def assignIds (l : List MarkerBase) : List Marker :=
  assignIdsFrom 0 l

/-- The `Capture` markers created by the loop of src/index.js lines 208-213:
for `i = 1 .. framesToCapture`, time `delayMs + browserTime + frameNumToTime(i, framesToCapture)`,
payload `{ frameCount: i }`. -/
def captureMarkers (delayMs browserTime : ℚ) (frameNumToTime : ℕ → ℕ → ℚ)
    (framesToCapture : ℕ) : List MarkerBase :=
  (List.range framesToCapture).map fun j =>
    { time := delayMs + browserTime + frameNumToTime (j + 1) framesToCapture
      type := .Capture
      frameCount := some (j + 1) }

/-- The `captureTimes` array (src/index.js line 214):
`delayMs + frameNumToTime(i, framesToCapture)` — note it does NOT include
`browserTime`, unlike the marker times. -/
def captureTimes (delayMs : ℚ) (frameNumToTime : ℕ → ℕ → ℚ)
    (framesToCapture : ℕ) : List ℚ :=
  (List.range framesToCapture).map fun j => delayMs + frameNumToTime (j + 1) framesToCapture

/-- `addAnimationGapThreshold = 100` (src/index.js line 219). -/
def addAnimationGapThreshold : ℚ := 100

/-- `addAnimationFrameTime = 20` (src/index.js line 220). -/
def addAnimationFrameTime : ℚ := 20

/-- The early-animation marker (src/index.js lines 221-226): if `captureTimes`
is nonempty and its head exceeds the threshold, a single `'Only Animate'`
marker at 20 ms is added. -/
def gapMarkers (cts : List ℚ) : List MarkerBase :=
  match cts with
  | [] => []
  | t0 :: _ =>
    if addAnimationGapThreshold < t0 then
      [{ time := addAnimationFrameTime, type := .OnlyAnimate }]
    else []

/-- One iteration of the subdivision pass body (src/index.js lines 232-241):
`frameDuration = time - lastMarkerTime`,
`framesForDuration = ceil(frameDuration / maximumAnimationFrameDuration)`,
and for `i = 1 .. framesForDuration - 1` an `'Only Animate'` marker at
`lastMarkerTime + i * frameDuration / framesForDuration`. -/
def subdivideStep (maximumAnimationFrameDuration lastMarkerTime time : ℚ) : List MarkerBase :=
  let frameDuration := time - lastMarkerTime
  let framesForDuration : ℤ := ⌈frameDuration / maximumAnimationFrameDuration⌉
  ((List.range framesForDuration.toNat).drop 1).map fun (i : ℕ) =>
    { time := lastMarkerTime + (i : ℚ) * frameDuration / (framesForDuration : ℚ)
      type := .OnlyAnimate }

/-- The `captureTimes.forEach` subdivision pass (src/index.js lines 228-244):
threads `lastMarkerTime` (initially 0) through the capture times; when
`maximumAnimationFrameDuration` is truthy it emits the `subdivideStep`
markers for each gap. -/
def subdividePass (maximumAnimationFrameDuration : Option ℚ) :
    List ℚ → ℚ → List MarkerBase
  | [], _ => []
  | time :: rest, lastMarkerTime =>
    (if isTruthy maximumAnimationFrameDuration then
      subdivideStep (maximumAnimationFrameDuration.getD 0) lastMarkerTime time
    else []) ++ subdividePass maximumAnimationFrameDuration rest time

/-- All `addMarker` calls in source order (capture loop, then the
gap-threshold marker, then the subdivision pass), before ids. -/
def buildMarkerBases (delayMs browserTime : ℚ) (frameNumToTime : ℕ → ℕ → ℚ)
    (framesToCapture : ℕ) (maximumAnimationFrameDuration : Option ℚ) : List MarkerBase :=
  captureMarkers delayMs browserTime frameNumToTime framesToCapture
    ++ gapMarkers (captureTimes delayMs frameNumToTime framesToCapture)
    ++ subdividePass maximumAnimationFrameDuration
        (captureTimes delayMs frameNumToTime framesToCapture) 0

/-- The full marker list with creation-order ids. -/
def buildMarkers (delayMs browserTime : ℚ) (frameNumToTime : ℕ → ℕ → ℚ)
    (framesToCapture : ℕ) (maximumAnimationFrameDuration : Option ℚ) : List Marker :=
  assignIds (buildMarkerBases delayMs browserTime frameNumToTime framesToCapture
    maximumAnimationFrameDuration)

/-- The sort comparator of src/index.js lines 246-251: by `time`, ties broken
by `id`. -/
def markerLE (a b : Marker) : Bool :=
  decide (a.time < b.time ∨ (a.time = b.time ∧ a.id ≤ b.id))

/-- `markers.sort(...)` — a sort under the comparator above. The comparator
is total and transitive, and antisymmetric on distinct ids; since ids are
unique, every sorted permutation is the same list, so modelling the sort by
insertion sort is faithful to any correct `Array.prototype.sort`. -/
def sortMarkers (l : List Marker) : List Marker :=
  l.insertionSort (fun a b => markerLE a b = true)

/-! ### Priming loop (src/index.js lines 195-205)

`browserTime` starts at 0. When `captureWhileSelectorExists` is configured and
the first `page.$` query finds the selector missing, the `while` loop keeps
querying, and for each query that finds it missing advances `browserTime` by
`frameDuration` and issues `goToTimeAndAnimate(browserTime)`.

The page is modelled by an oracle `present : ℕ → Bool` giving the result of
the `k`-th `page.$` call of this phase; the loop gets explicit fuel since the
page may keep the selector missing forever. The result is the list of times
passed to `goToTimeAndAnimate` together with the final `browserTime`. -/

/-- The `while (!(await page.$(...)))` loop, starting at query index `q` with
current `browserTime`. -/
def primingWhile (present : ℕ → Bool) (frameDuration : ℚ) :
    ℕ → ℕ → ℚ → Option (List ℚ × ℚ)
  | 0, _, _ => none
  | fuel + 1, q, browserTime =>
    if present q then some ([], browserTime)
    else
      (primingWhile present frameDuration fuel (q + 1) (browserTime + frameDuration)).map
        fun r => ((browserTime + frameDuration) :: r.1, r.2)

/-- The priming phase: the guarding `if` consumes query 0; the `while` loop's
checks start at query 1. Returns `(times passed to goToTimeAndAnimate, final browserTime)`. -/
def priming (captureWhileSelectorExists : Bool) (present : ℕ → Bool)
    (frameDuration : ℚ) (fuel : ℕ) : Option (List ℚ × ℚ) :=
  if captureWhileSelectorExists then
    if present 0 then some ([], 0)
    else primingWhile present frameDuration fuel 1 0
  else some ([], 0)

/-- Modelled from the spec's words for comparison with `priming` (claim C4 /
spec 4.6 Priming): "advance virtual time in fixed steps while a
caller-specified still-loading indicator is present — an open-ended pre-roll
with no fixed bound other than the indicator's disappearance": each query
finding the indicator present triggers one fixed-step advance; the loop stops
at the first query finding it absent. -/
def primingSpecClaim (present : ℕ → Bool) (frameDuration : ℚ) :
    ℕ → ℕ → ℚ → Option (List ℚ × ℚ)
  | 0, _, _ => none
  | fuel + 1, q, browserTime =>
    if present q then
      (primingSpecClaim present frameDuration fuel (q + 1) (browserTime + frameDuration)).map
        fun r => ((browserTime + frameDuration) :: r.1, r.2)
    else some ([], browserTime)

/-! ### Marker execution loop (src/index.js lines 254-288) -/

/-- Observable host interactions of the marker loop.
`goToTimeAndAnimate` / `goToTimeAndAnimateForCapture` are the two
clock-advance operations; `preparePageForScreenshot` is the caller hook;
`capture` is the strategy's capture call. -/
inductive Event
  | goToTimeAndAnimate (t : ℚ)
  | goToTimeAndAnimateForCapture (t : ℚ)
  | preparePageForScreenshot (frame total : ℕ)
  | capture (frame total : ℕ)
deriving DecidableEq, Repr

/-- The parts of the config the marker loop reads. -/
structure LoopConfig where
  captureWhileSelectorExists : Bool
  hasPreparePageForScreenshot : Bool
  hasCapture : Bool
  framesToCapture : ℕ
deriving Repr

/-- The `for (markerIndex ...)` loop: for a `'Capture'` marker, advance via
`goToTimeAndAnimateForCapture`, then — when a selector is configured — query
`page.$` (oracle `present` at the current query count) and `break` if the
selector is missing; otherwise run the hook and the capture and continue.
For an `'Only Animate'` marker, advance via `goToTimeAndAnimate`. -/
def runMarkers (cfg : LoopConfig) (present : ℕ → Bool) :
    List Marker → ℕ → List Event
  | [], _ => []
  | m :: rest, q =>
    match m.type with
    | .Capture =>
      Event.goToTimeAndAnimateForCapture m.time ::
        (if cfg.captureWhileSelectorExists && !present q then
          []
        else
          (if cfg.hasPreparePageForScreenshot then
            [Event.preparePageForScreenshot (m.frameCount.getD 0) cfg.framesToCapture]
          else []) ++
          (if cfg.hasCapture then
            [Event.capture (m.frameCount.getD 0) cfg.framesToCapture]
          else []) ++
          runMarkers cfg present rest
            (if cfg.captureWhileSelectorExists then q + 1 else q))
    | .OnlyAnimate =>
      Event.goToTimeAndAnimate m.time :: runMarkers cfg present rest q

/-- The target times passed to the clock-advance operations, in order. -/
def advanceTimes : List Event → List ℚ
  | [] => []
  | .goToTimeAndAnimate t :: r => t :: advanceTimes r
  | .goToTimeAndAnimateForCapture t :: r => t :: advanceTimes r
  | .preparePageForScreenshot _ _ :: r => advanceTimes r
  | .capture _ _ :: r => advanceTimes r

/-- The frame indices passed to the strategy's `capture`, in order. -/
def capturedFrames : List Event → List ℕ
  | [] => []
  | .capture i _ :: r => i :: capturedFrames r
  | _ :: r => capturedFrames r

/-- The whole scheduler run at the clock-advance level: priming advances
followed by the marker-loop advances, where the markers are built with the
`browserTime` the priming phase ended at. `primePresent` and `loopPresent`
are the selector oracles of the two phases. -/
def runAdvanceTimes (delayMs : ℚ) (frameNumToTime : ℕ → ℕ → ℚ)
    (framesToCapture : ℕ) (maximumAnimationFrameDuration : Option ℚ)
    (captureWhileSelectorExists : Bool) (primePresent loopPresent : ℕ → Bool)
    (frameDuration : ℚ) (fuel : ℕ)
    (hasPreparePageForScreenshot hasCapture : Bool) : Option (List ℚ) :=
  (priming captureWhileSelectorExists primePresent frameDuration fuel).map fun r =>
    r.1 ++ advanceTimes (runMarkers
      ⟨captureWhileSelectorExists, hasPreparePageForScreenshot, hasCapture, framesToCapture⟩
      loopPresent
      (sortMarkers (buildMarkers delayMs r.2 frameNumToTime framesToCapture
        maximumAnimationFrameDuration)) 0)

/-! ### Error handling (src/index.js lines 124-297)

The entire body of the exported async function sits inside one
`try { ... } catch (err) { log(err) }`. Each awaited host interaction may
throw; the first throw skips the rest of the body and lands in the single
catch, which logs the error; the async function then resolves normally.
We model the body as the list of its awaited operations in source order and
a fault oracle telling which operation (by position) throws. -/

/-- The awaited operations of the run body, in source order. `writeFrame i`
stands for the capture strategy persisting frame `i` (`capturer.capture`);
`selectorQuery` is a `page.$(captureWhileSelectorExists)` call. -/
inductive Action
  | getBrowser
  | newPage
  | setViewport
  | overwriteRandom
  | overwriteTime
  | initializePageUtils
  | initializeMediaTimeHandler
  | goto
  | preparePage
  | startDelayWait
  | beforeCapture
  | advance (t : ℚ)
  | advanceForCapture (t : ℚ)
  | selectorQuery
  | preparePageForScreenshot (i : ℕ)
  | writeFrame (i : ℕ)
  | afterCapture
  | closeBrowser
deriving DecidableEq, Repr

/-- The actions of the marker loop (src/index.js lines 254-288), mirroring
`runMarkers` but recording every awaited call, including the `page.$`
stop-condition query. -/
def loopActions (cfg : LoopConfig) (present : ℕ → Bool) :
    List Marker → ℕ → List Action
  | [], _ => []
  | m :: rest, q =>
    match m.type with
    | .Capture =>
      Action.advanceForCapture m.time ::
        ((if cfg.captureWhileSelectorExists then [Action.selectorQuery] else []) ++
          (if cfg.captureWhileSelectorExists && !present q then
            []
          else
            (if cfg.hasPreparePageForScreenshot then
              [Action.preparePageForScreenshot (m.frameCount.getD 0)]
            else []) ++
            (if cfg.hasCapture then [Action.writeFrame (m.frameCount.getD 0)] else []) ++
            loopActions cfg present rest
              (if cfg.captureWhileSelectorExists then q + 1 else q)))
    | .OnlyAnimate =>
      Action.advance m.time :: loopActions cfg present rest q

/-- The awaited operations of the body before the final `browser.close()`
(src/index.js lines 124-292): browser acquisition and page setup, navigation,
caller hook, start-delay wait, `beforeCapture`, priming advances, the marker
loop, and `afterCapture`. -/
def runScriptBody (hasViewport hasPreparePage hasBeforeCapture hasAfterCapture : Bool)
    (cfg : LoopConfig) (present : ℕ → Bool) (primingAdvances : List ℚ)
    (markers : List Marker) : List Action :=
  [Action.getBrowser, Action.newPage] ++
    (if hasViewport then [Action.setViewport] else []) ++
    [Action.overwriteRandom, Action.overwriteTime, Action.initializePageUtils,
      Action.initializeMediaTimeHandler, Action.goto] ++
    (if hasPreparePage then [Action.preparePage] else []) ++
    [Action.startDelayWait] ++
    (if hasBeforeCapture then [Action.beforeCapture] else []) ++
    primingAdvances.map Action.advance ++
    loopActions cfg present markers 0 ++
    (if hasAfterCapture then [Action.afterCapture] else [])

/-- The awaited operations of the whole body in source order
(src/index.js lines 124-294): `browser.close()` (line 294) is the LAST
statement of the `try` block, after everything else. -/
def runScript (hasViewport hasPreparePage hasBeforeCapture hasAfterCapture : Bool)
    (cfg : LoopConfig) (present : ℕ → Bool) (primingAdvances : List ℚ)
    (markers : List Marker) : List Action :=
  runScriptBody hasViewport hasPreparePage hasBeforeCapture hasAfterCapture
    cfg present primingAdvances markers ++ [Action.closeBrowser]

/-- Execute the body's actions starting at absolute position `k`: the first
action whose fault-oracle entry is `some e` throws `e`, skipping everything
after it; otherwise all actions are performed. Returns the performed actions
and the error, if any, that escaped the body. -/
def execActions (fault : ℕ → Option String) : List Action → ℕ → List Action × Option String
  | [], _ => ([], none)
  | a :: rest, k =>
    match fault k with
    | some e => ([], some e)
    | none =>
      let r := execActions fault rest (k + 1)
      (a :: r.1, r.2)

/-- Outcome of the exported function: whether its promise resolved, what the
configured logger received via the catch handler, and which body actions ran. -/
structure RunOutcome where
  promiseResolved : Bool
  loggedErrors : List String
  performed : List Action
deriving DecidableEq, Repr

/-- The exported function: the whole body in a single `try`; `catch (err)`
logs the error (src/index.js lines 295-297) and the function returns
normally either way. -/
def timesnapRun (fault : ℕ → Option String) (script : List Action) : RunOutcome :=
  let r := execActions fault script 0
  { promiseResolved := true
    loggedErrors := match r.2 with | some e => [e] | none => []
    performed := r.1 }

/-- The frames persisted by the performed actions, in order. -/
def framesWritten : List Action → List ℕ
  | [] => []
  | .writeFrame i :: r => i :: framesWritten r
  | _ :: r => framesWritten r

/-! ### Helper lemmas -/

theorem length_assignIdsFrom (n : ℕ) (l : List MarkerBase) :
    (assignIdsFrom n l).length = l.length := by
  induction l generalizing n with
  | nil => rfl
  | cons b rest ih => simp [assignIdsFrom, ih]

theorem assignIdsFrom_append (n : ℕ) (A B : List MarkerBase) :
    assignIdsFrom n (A ++ B) = assignIdsFrom n A ++ assignIdsFrom (n + A.length) B := by
  induction A generalizing n with
  | nil => simp [assignIdsFrom]
  | cons b rest ih =>
    simp only [List.cons_append, assignIdsFrom, List.append_eq, ih (n + 1), List.length_cons]
    rw [show n + 1 + rest.length = n + (rest.length + 1) by omega]

theorem getElem?_assignIdsFrom (n : ℕ) (l : List MarkerBase) (i : ℕ) :
    (assignIdsFrom n l)[i]? = l[i]?.map fun b => ⟨b.time, b.type, b.frameCount, n + i⟩ := by
  induction l generalizing n i with
  | nil => simp [assignIdsFrom]
  | cons b rest ih =>
    cases i with
    | zero => simp [assignIdsFrom]
    | succ j =>
      simp only [assignIdsFrom, List.getElem?_cons_succ, ih (n + 1) j]
      rw [show n + 1 + j = n + (j + 1) by omega]

theorem map_id_assignIdsFrom (n : ℕ) (l : List MarkerBase) :
    (assignIdsFrom n l).map Marker.id = List.range' n l.length := by
  induction l generalizing n with
  | nil => rfl
  | cons b rest ih => simp [assignIdsFrom, List.range'_succ, ih]

theorem filter_assignIdsFrom_of_type (n : ℕ) (l : List MarkerBase) (t : MType)
    (h : ∀ m ∈ l, m.type = t) :
    (assignIdsFrom n l).filter (fun m => m.type == t) = assignIdsFrom n l := by
  induction l generalizing n with
  | nil => rfl
  | cons b rest ih =>
    have hb : b.type = t := h b (by simp)
    simp [assignIdsFrom, List.filter_cons, hb,
      ih (n + 1) (fun m hm => h m (by simp [hm]))]

theorem filter_assignIdsFrom_of_other_type (n : ℕ) (l : List MarkerBase) (t t' : MType)
    (h : ∀ m ∈ l, m.type = t) (hne : t ≠ t') :
    (assignIdsFrom n l).filter (fun m => m.type == t') = [] := by
  induction l generalizing n with
  | nil => rfl
  | cons b rest ih =>
    have hb : b.type = t := h b (by simp)
    simp [assignIdsFrom, List.filter_cons, hb, hne,
      ih (n + 1) (fun m hm => h m (by simp [hm]))]

theorem captureMarkers_type (delayMs browserTime : ℚ) (f : ℕ → ℕ → ℚ) (N : ℕ) :
    ∀ m ∈ captureMarkers delayMs browserTime f N, m.type = MType.Capture := by
  intro m hm
  obtain ⟨j, _, rfl⟩ := List.mem_map.mp hm
  rfl

theorem length_captureMarkers (delayMs browserTime : ℚ) (f : ℕ → ℕ → ℚ) (N : ℕ) :
    (captureMarkers delayMs browserTime f N).length = N := by
  simp [captureMarkers]

theorem gapMarkers_type (cts : List ℚ) :
    ∀ m ∈ gapMarkers cts, m.type = MType.OnlyAnimate := by
  intro m hm
  cases cts with
  | nil => simp [gapMarkers] at hm
  | cons t0 rest =>
    simp only [gapMarkers] at hm
    split at hm
    · simp at hm
      subst hm
      rfl
    · simp at hm

theorem subdivideStep_type (D last t : ℚ) :
    ∀ m ∈ subdivideStep D last t, m.type = MType.OnlyAnimate := by
  intro m hm
  obtain ⟨i, _, rfl⟩ := List.mem_map.mp hm
  rfl

theorem subdividePass_type (D : Option ℚ) (cts : List ℚ) (last : ℚ) :
    ∀ m ∈ subdividePass D cts last, m.type = MType.OnlyAnimate := by
  induction cts generalizing last with
  | nil => intro m hm; simp [subdividePass] at hm
  | cons t rest ih =>
    intro m hm
    simp only [subdividePass, List.mem_append] at hm
    rcases hm with hm | hm
    · split at hm
      · exact subdivideStep_type _ _ _ m hm
      · simp at hm
    · exact ih t m hm

theorem subdividePass_none (cts : List ℚ) (last : ℚ) :
    subdividePass none cts last = [] := by
  induction cts generalizing last with
  | nil => rfl
  | cons t rest ih => simp [subdividePass, isTruthy, ih]

theorem subdividePass_cons (D : ℚ) (hD : D ≠ 0) (t : ℚ) (rest : List ℚ) (last : ℚ) :
    subdividePass (some D) (t :: rest) last =
      subdivideStep D last t ++ subdividePass (some D) rest t := by
  simp [subdividePass, isTruthy, hD]

theorem length_subdivideStep (D last t : ℚ) :
    (subdivideStep D last t).length = (⌈(t - last) / D⌉).toNat - 1 := by
  simp [subdivideStep]

theorem getElem?_subdivideStep (D last t : ℚ) (i : ℕ)
    (hi : i + 1 < (⌈(t - last) / D⌉).toNat) :
    (subdivideStep D last t)[i]? =
      some ⟨last + ((i : ℚ) + 1) * (t - last) / ((⌈(t - last) / D⌉ : ℤ) : ℚ),
        MType.OnlyAnimate, none⟩ := by
  simp only [subdivideStep, List.getElem?_map, List.getElem?_drop,
    List.getElem?_range (show 1 + i < (⌈(t - last) / D⌉).toNat by omega), Option.map_some']
  congr 2
  push_cast
  ring

theorem mem_drop_one_range (k i : ℕ) : i ∈ (List.range k).drop 1 ↔ 1 ≤ i ∧ i < k := by
  constructor
  · intro h
    obtain ⟨j, hj⟩ := List.mem_iff_getElem?.mp h
    rw [List.getElem?_drop] at hj
    by_cases hcase : 1 + j < k
    · rw [List.getElem?_range hcase] at hj
      obtain rfl := Option.some.inj hj
      omega
    · rw [List.getElem?_eq_none (by simpa using hcase)] at hj
      exact absurd hj (by simp)
  · intro ⟨h1, h2⟩
    refine List.mem_iff_getElem?.mpr ⟨i - 1, ?_⟩
    rw [List.getElem?_drop, show 1 + (i - 1) = i by omega, List.getElem?_range h2]

theorem subdivideStep_time_between (D last t : ℚ) (hD : 0 < D) :
    ∀ m ∈ subdivideStep D last t, last < m.time ∧ m.time < t := by
  intro m hm
  simp only [subdivideStep] at hm
  obtain ⟨i, hi, rfl⟩ := List.mem_map.mp hm
  obtain ⟨h1, h2⟩ := (mem_drop_one_range _ _).mp hi
  have hn2 : (2 : ℤ) ≤ ⌈(t - last) / D⌉ := by omega
  have hgapD : D < t - last := by
    have h1d : (1 : ℚ) < (t - last) / D := by
      exact_mod_cast Int.lt_ceil.mp (show (1 : ℤ) < ⌈(t - last) / D⌉ by omega)
    have := (lt_div_iff₀ hD).mp h1d
    linarith
  have hgap : (0 : ℚ) < t - last := lt_trans hD hgapD
  have hnQ : (0 : ℚ) < ((⌈(t - last) / D⌉ : ℤ) : ℚ) := by exact_mod_cast by omega
  have hiQ1 : (1 : ℚ) ≤ (i : ℚ) := by exact_mod_cast h1
  have hiQn : (i : ℚ) < ((⌈(t - last) / D⌉ : ℤ) : ℚ) := by
    exact_mod_cast show (i : ℤ) < ⌈(t - last) / D⌉ by omega
  constructor
  · have hpos : 0 < (i : ℚ) * (t - last) / ((⌈(t - last) / D⌉ : ℤ) : ℚ) :=
      div_pos (mul_pos (by linarith) hgap) hnQ
    simpa using hpos
  · have hlt : (i : ℚ) * (t - last) / ((⌈(t - last) / D⌉ : ℤ) : ℚ) < t - last := by
      rw [div_lt_iff₀ hnQ]
      nlinarith
    simp only []
    linarith

theorem primingWhile_eq (present : ℕ → Bool) (d : ℚ) :
    ∀ (fuel q : ℕ) (t0 : ℚ) (ts : List ℚ) (tf : ℚ),
      primingWhile present d fuel q t0 = some (ts, tf) →
      ts = (List.range ts.length).map (fun (i : ℕ) => t0 + ((i : ℚ) + 1) * d) ∧
      tf = t0 + (ts.length : ℚ) * d ∧
      (∀ j, j < ts.length → present (q + j) = false) ∧
      present (q + ts.length) = true := by
  intro fuel
  induction fuel with
  | zero => intro q t0 ts tf h; simp [primingWhile] at h
  | succ fuel ih =>
    intro q t0 ts tf h
    by_cases hp : present q
    · rw [primingWhile, if_pos hp] at h
      simp only [Option.some.injEq, Prod.mk.injEq] at h
      obtain ⟨rfl, rfl⟩ := h
      exact ⟨by simp, by simp, by simp, by simpa using hp⟩
    · rw [primingWhile, if_neg hp, Option.map_eq_some'] at h
      obtain ⟨⟨ts', tf'⟩, hrec, heq⟩ := h
      simp only [Prod.mk.injEq] at heq
      obtain ⟨rfl, rfl⟩ := heq
      obtain ⟨ih1, ih2, ih3, ih4⟩ := ih (q + 1) (t0 + d) ts' tf' hrec
      refine ⟨?_, ?_, ?_, ?_⟩
      · simp only [List.length_cons, List.range_succ_eq_map, List.map_cons, List.map_map]
        rw [List.cons_eq_cons]
        constructor
        · push_cast; ring
        · conv_lhs => rw [ih1]
          apply List.map_congr_left
          intro a _
          simp only [Function.comp_apply, Nat.succ_eq_add_one]
          push_cast
          ring
      · simp only [List.length_cons]
        rw [ih2]
        push_cast
        ring
      · intro j hj
        cases j with
        | zero => simpa using hp
        | succ j' =>
          have := ih3 j' (by simp only [List.length_cons] at hj; omega)
          rwa [show q + (j' + 1) = q + 1 + j' by omega]
      · simp only [List.length_cons]
        rw [show q + (ts'.length + 1) = q + 1 + ts'.length by omega]
        exact ih4

theorem priming_eq (present : ℕ → Bool) (d : ℚ) (fuel : ℕ) (ts : List ℚ) (tf : ℚ)
    (h : priming true present d fuel = some (ts, tf)) :
    ts = (List.range ts.length).map (fun (i : ℕ) => ((i : ℚ) + 1) * d) ∧
    tf = (ts.length : ℚ) * d ∧
    ((present 0 = true ∧ ts = []) ∨
      (present 0 = false ∧ (∀ q, 1 ≤ q → q ≤ ts.length → present q = false) ∧
        present (ts.length + 1) = true)) := by
  rw [priming, if_pos rfl] at h
  by_cases hp : present 0
  · rw [if_pos hp] at h
    simp only [Option.some.injEq, Prod.mk.injEq] at h
    obtain ⟨rfl, rfl⟩ := h
    exact ⟨by simp, by simp, Or.inl ⟨hp, rfl⟩⟩
  · rw [if_neg hp] at h
    obtain ⟨h1, h2, h3, h4⟩ := primingWhile_eq present d fuel 1 0 ts tf h
    refine ⟨?_, by simpa using h2, Or.inr ⟨by simpa using hp, ?_, ?_⟩⟩
    · conv_lhs => rw [h1]
      apply List.map_congr_left
      intro a _
      ring
    · intro q hq1 hq2
      have := h3 (q - 1) (by omega)
      rwa [show 1 + (q - 1) = q by omega] at this
    · rwa [show 1 + ts.length = ts.length + 1 by omega] at h4

theorem execActions_no_fault (fault : ℕ → Option String) :
    ∀ (script : List Action) (k0 : ℕ),
      (∀ j, j < script.length → fault (k0 + j) = none) →
      execActions fault script k0 = (script, none) := by
  intro script
  induction script with
  | nil => intro k0 _; rfl
  | cons a rest ih =>
    intro k0 h
    have h0 : fault k0 = none := by simpa using h 0 (by simp)
    have hrest : ∀ j, j < rest.length → fault (k0 + 1 + j) = none := by
      intro j hj
      have := h (j + 1) (by simp; omega)
      rwa [show k0 + (j + 1) = k0 + 1 + j by omega] at this
    simp [execActions, h0, ih (k0 + 1) hrest]

theorem execActions_first_fault (fault : ℕ → Option String) (e : String) :
    ∀ (script : List Action) (k0 n : ℕ),
      n < script.length →
      (∀ j, j < n → fault (k0 + j) = none) →
      fault (k0 + n) = some e →
      execActions fault script k0 = (script.take n, some e) := by
  intro script
  induction script with
  | nil => intro k0 n hn _ _; simp at hn
  | cons a rest ih =>
    intro k0 n hn hnone hf
    cases n with
    | zero =>
      simp only [Nat.add_zero] at hf
      simp [execActions, hf]
    | succ m =>
      have h0 : fault k0 = none := by simpa using hnone 0 (by omega)
      have hrest : ∀ j, j < m → fault (k0 + 1 + j) = none := by
        intro j hj
        have := hnone (j + 1) (by omega)
        rwa [show k0 + (j + 1) = k0 + 1 + j by omega] at this
      have := ih (k0 + 1) m (by simpa using hn) hrest
        (by rwa [show k0 + 1 + m = k0 + (m + 1) by omega])
      simp [execActions, h0, this]

theorem closeBrowser_not_mem_loopActions (cfg : LoopConfig) (present : ℕ → Bool) :
    ∀ (markers : List Marker) (q : ℕ), Action.closeBrowser ∉ loopActions cfg present markers q := by
  intro markers
  induction markers with
  | nil => intro q; simp [loopActions]
  | cons m rest ih =>
    intro q
    obtain ⟨mt, mty, mfc, mid⟩ := m
    cases mty <;> simp only [loopActions] <;> (try split_ifs) <;>
      simp [List.mem_append, ih]

theorem closeBrowser_not_mem_runScriptBody
    (hasViewport hasPreparePage hasBeforeCapture hasAfterCapture : Bool)
    (cfg : LoopConfig) (present : ℕ → Bool) (primingAdvances : List ℚ)
    (markers : List Marker) :
    Action.closeBrowser ∉ runScriptBody hasViewport hasPreparePage hasBeforeCapture
      hasAfterCapture cfg present primingAdvances markers := by
  simp only [runScriptBody, List.append_assoc, List.mem_append]
  intro h
  rcases h with h | h | h | h | h | h | h | h | h
  · simp at h
  · split_ifs at h <;> simp at h
  · simp at h
  · split_ifs at h <;> simp at h
  · simp at h
  · split_ifs at h <;> simp at h
  · simp at h
  · exact closeBrowser_not_mem_loopActions cfg present markers 0 h
  · split_ifs at h <;> simp at h

theorem markerLE_total (a b : Marker) : (markerLE a b || markerLE b a) = true := by
  simp only [markerLE, Bool.or_eq_true, decide_eq_true_eq]
  rcases lt_trichotomy a.time b.time with h | h | h
  · exact Or.inl (Or.inl h)
  · rcases Nat.le_total a.id b.id with h' | h'
    · exact Or.inl (Or.inr ⟨h, h'⟩)
    · exact Or.inr (Or.inr ⟨h.symm, h'⟩)
  · exact Or.inr (Or.inl h)

theorem markerLE_trans (a b c : Marker)
    (hab : markerLE a b = true) (hbc : markerLE b c = true) : markerLE a c = true := by
  simp only [markerLE, decide_eq_true_eq] at *
  rcases hab with h | ⟨he, hi⟩
  · rcases hbc with h' | ⟨he', _⟩
    · exact Or.inl (lt_trans h h')
    · exact Or.inl (he' ▸ h)
  · rcases hbc with h' | ⟨he', hi'⟩
    · exact Or.inl (he ▸ h')
    · exact Or.inr ⟨he.trans he', hi.trans hi'⟩

theorem markerLE_antisymm_key (a b : Marker)
    (hab : markerLE a b = true) (hba : markerLE b a = true) :
    a.time = b.time ∧ a.id = b.id := by
  simp only [markerLE, decide_eq_true_eq] at *
  rcases hab with h | ⟨he, hi⟩
  · rcases hba with h' | ⟨he', _⟩
    · exact absurd h' (lt_asymm h)
    · exact absurd (he' ▸ h) (lt_irrefl _)
  · rcases hba with h' | ⟨_, hi'⟩
    · exact absurd (he ▸ h') (lt_irrefl _)
    · exact ⟨he, Nat.le_antisymm hi hi'⟩

/-! ### Claim theorems -/

/-- C1: the claim says the sequence of target times passed to the
clock-advance operations (priming advances included) is non-decreasing for
every configuration and run. The code violates this: capture-marker times
include the `browserTime` accumulated by priming (line 210) but the
`captureTimes` array driving the gap-threshold and subdivision passes does
not (line 214), so inserted `Only Animate` markers can target times before
the last priming advance. With frames = 2, fps = 1 (frame duration 1000 ms),
`maximumAnimationFrameDuration` = 500, and a `captureWhileSelectorExists`
selector that is absent at the initial check and one while-check, the
scheduler issues advances [1000, 500, 1000, 2000]: the advance to 500 is
issued after the advance to 1000. -/
theorem c1_advance_times_regress :
    runAdvanceTimes 0 (defaultFrameNumToTime 1) 2 (some 500) true
        (fun q => decide (2 ≤ q)) (fun _ => true) 1000 5 false true
      = some [1000, 500, 1000, 2000] ∧
    ¬ List.Chain' (· ≤ ·) ([1000, 500, 1000, 2000] : List ℚ) := by
  constructor
  · norm_num [runAdvanceTimes, priming, primingWhile, runMarkers, advanceTimes, sortMarkers,
      buildMarkers, buildMarkerBases, captureMarkers, captureTimes, gapMarkers, subdividePass,
      subdivideStep, assignIds, assignIdsFrom, defaultFrameNumToTime, frameDurationOf, isTruthy,
      addAnimationGapThreshold, addAnimationFrameTime, List.range_succ, markerLE]
  · norm_num [List.chain'_cons]

/-- C2 counterexample: the claim says the `i`-th Capture marker's time is the
configured start delay plus `frameNumToTime(i, N)`. After a priming run that
ends at `browserTime` = 1000 (delay 0, default mapping at fps 1, N = 2), the
first Capture marker's time is 1000, while the claimed value
`0 + frameNumToTime(1, 2)` is 0. -/
theorem c2_capture_time_claim_fails :
    priming true (fun q => decide (2 ≤ q)) 1000 5 = some ([1000], 1000) ∧
    ((buildMarkers 0 1000 (defaultFrameNumToTime 1) 2 none).filter
        (fun m => m.type == MType.Capture))[0]?.map Marker.time = some 1000 ∧
    (1000 : ℚ) ≠ 0 + defaultFrameNumToTime 1 1 2 := by
  refine ⟨?_, ?_, ?_⟩
  · norm_num [priming, primingWhile]
  · norm_num [buildMarkers, buildMarkerBases, captureMarkers, captureTimes, gapMarkers,
      subdividePass, assignIds, assignIdsFrom, defaultFrameNumToTime, frameDurationOf, isTruthy,
      addAnimationGapThreshold, addAnimationFrameTime, List.range_succ, List.filter]
  · norm_num [defaultFrameNumToTime, frameDurationOf]

/-- C2 (amended): for every configuration and every `browserTime` reached by
priming, the builder creates exactly N Capture markers; the `i`-th (1-based)
carries payload frame index `i` and creation-order id `i - 1` (so the frame
indices 1..N are assigned in strictly increasing creation order), and its
time is `delayMs + browserTime + frameNumToTime(i, N)` — which equals the
claimed `delayMs + frameNumToTime(i, N)` exactly when no priming advance
occurred (`browserTime = 0`). -/
theorem c2_capture_markers_shape (delayMs browserTime : ℚ) (f : ℕ → ℕ → ℚ) (N : ℕ)
    (maxD : Option ℚ) :
    ((buildMarkers delayMs browserTime f N maxD).filter
        (fun m => m.type == MType.Capture)).length = N ∧
    ∀ j, j < N →
      ((buildMarkers delayMs browserTime f N maxD).filter
          (fun m => m.type == MType.Capture))[j]? =
        some ⟨delayMs + browserTime + f (j + 1) N, MType.Capture, some (j + 1), j⟩ := by
  have key : (buildMarkers delayMs browserTime f N maxD).filter
      (fun m => m.type == MType.Capture)
      = assignIdsFrom 0 (captureMarkers delayMs browserTime f N) := by
    rw [buildMarkers, assignIds, buildMarkerBases, assignIdsFrom_append, assignIdsFrom_append,
      List.filter_append, List.filter_append,
      filter_assignIdsFrom_of_type _ _ _ (captureMarkers_type delayMs browserTime f N),
      filter_assignIdsFrom_of_other_type _ _ _ _ (gapMarkers_type _) (by decide),
      filter_assignIdsFrom_of_other_type _ _ _ _ (subdividePass_type _ _ _) (by decide)]
    simp
  rw [key]
  refine ⟨by rw [length_assignIdsFrom, length_captureMarkers], ?_⟩
  intro j hj
  rw [getElem?_assignIdsFrom]
  simp [captureMarkers, List.getElem?_range hj]

/-- C2 witness: the amended shape at delay 5, browserTime 1000, fps 1,
N = 2, no maximum animation-frame duration, at j = 1. -/
theorem c2_capture_markers_shape_witness :
    ((buildMarkers 5 1000 (defaultFrameNumToTime 1) 2 none).filter
        (fun m => m.type == MType.Capture)).length = 2 ∧
    ((buildMarkers 5 1000 (defaultFrameNumToTime 1) 2 none).filter
        (fun m => m.type == MType.Capture))[1]? =
      some ⟨5 + 1000 + defaultFrameNumToTime 1 2 2, MType.Capture, some 2, 1⟩ :=
  ⟨(c2_capture_markers_shape 5 1000 (defaultFrameNumToTime 1) 2 none).1,
    (c2_capture_markers_shape 5 1000 (defaultFrameNumToTime 1) 2 none).2 1 (by norm_num)⟩

/-- C3: with a configured (nonzero) `maximumAnimationFrameDuration` D, the
subdivision pass processes each consecutive pair of capture times with the
previous time as `lastMarkerTime`; for a pair `(t, t + Δ)` with `Δ > D` it
inserts exactly `⌈Δ/D⌉ - 1` `Only Animate` markers, the `i`-th (0-based) at
`t + (i+1)·Δ/⌈Δ/D⌉`, all strictly between `t` and `t + Δ`. In particular for
duration = 2, fps = 1, D = 500: 2 frames at capture times [0, 1000], and the
built timeline contains exactly one `Only Animate` marker, at 500 ms. -/
theorem c3_subdivision_between_captures :
    (∀ (D t₁ t₂ : ℚ) (rest : List ℚ) (last : ℚ), D ≠ 0 →
      subdividePass (some D) (t₁ :: t₂ :: rest) last =
        subdivideStep D last t₁ ++ (subdivideStep D t₁ t₂ ++ subdividePass (some D) rest t₂)) ∧
    (∀ D t Δ : ℚ, 0 < D → D < Δ →
      ((subdivideStep D t (t + Δ)).length : ℤ) = ⌈Δ / D⌉ - 1 ∧
      (∀ i : ℕ, i + 1 < (⌈Δ / D⌉).toNat →
        (subdivideStep D t (t + Δ))[i]? =
          some ⟨t + ((i : ℚ) + 1) * Δ / ((⌈Δ / D⌉ : ℤ) : ℚ), MType.OnlyAnimate, none⟩) ∧
      (∀ m ∈ subdivideStep D t (t + Δ), t < m.time ∧ m.time < t + Δ)) ∧
    resolveFramesFps none (some 2) (some 1) = (2, 1) ∧
    captureTimes 0 (defaultFrameNumToTime 1) 2 = [0, 1000] ∧
    (buildMarkers 0 0 (defaultFrameNumToTime 1) 2 (some 500)).filter
        (fun m => m.type == MType.OnlyAnimate) =
      [⟨500, MType.OnlyAnimate, none, 2⟩] := by
  refine ⟨?_, ?_, ?_, ?_, ?_⟩
  · intro D t₁ t₂ rest last hD
    rw [subdividePass_cons D hD, subdividePass_cons D hD]
  · intro D t Δ hD hΔ
    have harg : t + Δ - t = Δ := by ring
    have hn2 : (2 : ℤ) ≤ ⌈Δ / D⌉ := by
      have h1 : (1 : ℚ) < Δ / D := (one_lt_div hD).mpr hΔ
      have := Int.lt_ceil.mpr (show ((1 : ℤ) : ℚ) < Δ / D by exact_mod_cast h1)
      omega
    refine ⟨?_, ?_, ?_⟩
    · rw [length_subdivideStep, harg]
      omega
    · intro i hi
      have := getElem?_subdivideStep D t (t + Δ) i (by rw [harg]; exact hi)
      rwa [harg] at this
    · exact subdivideStep_time_between D t (t + Δ) hD
  · norm_num [resolveFramesFps, isTruthy]
  · norm_num [captureTimes, defaultFrameNumToTime, frameDurationOf, List.range_succ]
  · norm_num [buildMarkers, buildMarkerBases, captureMarkers, captureTimes, gapMarkers,
      subdividePass, subdivideStep, assignIds, assignIdsFrom, defaultFrameNumToTime,
      frameDurationOf, isTruthy, addAnimationGapThreshold, addAnimationFrameTime,
      List.range_succ, List.filter, show (MType.Capture == MType.OnlyAnimate) = false from rfl]

/-- C3 witness: the pair property at D = 500, t = 0, Δ = 1000 (one marker,
at 500, strictly between), and the pass-unfolding at a concrete list. -/
theorem c3_subdivision_witness :
    subdividePass (some 500) ([0, 1000] : List ℚ) 0 =
      subdivideStep 500 0 0 ++ (subdivideStep 500 0 1000 ++ subdividePass (some 500) [] 1000) ∧
    ((subdivideStep (500 : ℚ) 0 (0 + 1000)).length : ℤ) = ⌈(1000 : ℚ) / 500⌉ - 1 :=
  ⟨c3_subdivision_between_captures.1 500 0 1000 [] 0 (by norm_num),
    (c3_subdivision_between_captures.2.1 500 0 1000 (by norm_num) (by norm_num)).1⟩

/-- C4 counterexample: the claim says the priming loop advances virtual time
while the indicator is PRESENT and stops as soon as it DISAPPEARS
(`primingSpecClaim`). With an indicator present at the initial check and
absent from the next check on, that behavior performs one advance (to one
frame duration, 1000), but the code's priming loop performs none: the two
disagree, so the code does not implement the claimed while-present rule. -/
theorem c4_priming_direction_claim_fails :
    priming true (fun q => decide (q = 0)) 1000 5 = some ([], 0) ∧
    primingSpecClaim (fun q => decide (q = 0)) 1000 5 0 0 = some ([1000], 1000) ∧
    (some (([], 0) : List ℚ × ℚ) ≠ some (([1000], 1000) : List ℚ × ℚ)) := by
  refine ⟨?_, ?_, by simp⟩
  · norm_num [priming, primingWhile]
  · norm_num [primingSpecClaim]

/-- C4 (amended): when `captureWhileSelectorExists` is configured, the
priming loop (after the startDelay wait) advances virtual time in fixed
steps of one frame duration while the indicator is ABSENT from the page, and
stops priming as soon as the indicator APPEARS: every terminating priming
run issues the advance targets d, 2d, ..., m·d and ends at browserTime m·d;
m = 0 whenever the indicator is present at the initial check, and otherwise
every advance follows a query that found the indicator absent and the loop
stops at the first query that finds it present. The pre-roll has no bound
other than the indicator's appearance (without it, no fuel suffices). -/
theorem c4_priming_steps_while_absent (present : ℕ → Bool) (d : ℚ)
    (fuel : ℕ) (ts : List ℚ) (tf : ℚ)
    (h : priming true present d fuel = some (ts, tf)) :
    ts = (List.range ts.length).map (fun (i : ℕ) => ((i : ℚ) + 1) * d) ∧
    tf = (ts.length : ℚ) * d ∧
    ((present 0 = true ∧ ts = []) ∨
      (present 0 = false ∧ (∀ q, 1 ≤ q → q ≤ ts.length → present q = false) ∧
        present (ts.length + 1) = true)) :=
  priming_eq present d fuel ts tf h

/-- C4 witness: the amended characterization at the trace where the selector
appears at query 3, frame duration 1000, fuel 10: two advances, [1000, 2000]. -/
theorem c4_priming_steps_witness :
    priming true (fun q => decide (3 ≤ q)) 1000 10 = some ([1000, 2000], 2000) ∧
    ([(1000 : ℚ), 2000] =
      (List.range ([(1000 : ℚ), 2000]).length).map (fun (i : ℕ) => ((i : ℚ) + 1) * 1000)) :=
  ⟨by norm_num [priming, primingWhile], (c4_priming_steps_while_absent
    (fun q => decide (3 ≤ q)) 1000 10 [1000, 2000] 2000
    (by norm_num [priming, primingWhile])).1⟩

/-- C5: in the marker loop, when a stop-condition selector is configured, the
`page.$` check happens immediately after the Capture marker's clock advance
and before the `preparePageForScreenshot` hook and the strategy's capture
call; if the indicator is absent the loop breaks, so no further marker of
any kind (Capture or Only Animate) executes. Scenario: a 10-frame run whose
indicator is present for the checks of frames 1..5 and absent at frame 6's
check captures exactly frames [1, 2, 3, 4, 5] and terminates right after
frame 6's clock advance (at 500 ms), without error. -/
theorem c5_stop_condition_before_capture :
    (∀ (cfg : LoopConfig) (p : ℕ → Bool) (m : Marker) (rest : List Marker) (q : ℕ),
      m.type = MType.Capture → cfg.captureWhileSelectorExists = true → p q = false →
      runMarkers cfg p (m :: rest) q = [Event.goToTimeAndAnimateForCapture m.time]) ∧
    (∀ (cfg : LoopConfig) (p : ℕ → Bool) (m : Marker) (rest : List Marker) (q : ℕ),
      m.type = MType.Capture → cfg.captureWhileSelectorExists = true → p q = true →
      runMarkers cfg p (m :: rest) q =
        Event.goToTimeAndAnimateForCapture m.time ::
          ((if cfg.hasPreparePageForScreenshot then
              [Event.preparePageForScreenshot (m.frameCount.getD 0) cfg.framesToCapture]
            else []) ++
            (if cfg.hasCapture then
              [Event.capture (m.frameCount.getD 0) cfg.framesToCapture]
            else []) ++
            runMarkers cfg p rest (q + 1))) ∧
    capturedFrames (runMarkers ⟨true, false, true, 10⟩ (fun q => decide (q < 5))
        (sortMarkers (buildMarkers 0 0 (defaultFrameNumToTime 10) 10 none)) 0)
      = [1, 2, 3, 4, 5] ∧
    (runMarkers ⟨true, false, true, 10⟩ (fun q => decide (q < 5))
        (sortMarkers (buildMarkers 0 0 (defaultFrameNumToTime 10) 10 none)) 0).getLast?
      = some (Event.goToTimeAndAnimateForCapture 500) := by
  refine ⟨?_, ?_, ?_, ?_⟩
  · intro cfg p m rest q hm hsel hp
    rw [runMarkers, hm]
    simp [hsel, hp]
  · intro cfg p m rest q hm hsel hp
    rw [runMarkers, hm]
    simp [hsel, hp]
  · norm_num [runMarkers, capturedFrames, sortMarkers, buildMarkers, buildMarkerBases,
      captureMarkers, captureTimes, gapMarkers, subdividePass, assignIds, assignIdsFrom,
      defaultFrameNumToTime, frameDurationOf, isTruthy, addAnimationGapThreshold,
      addAnimationFrameTime, List.range_succ, markerLE]
  · norm_num [runMarkers, sortMarkers, buildMarkers, buildMarkerBases,
      captureMarkers, captureTimes, gapMarkers, subdividePass, assignIds, assignIdsFrom,
      defaultFrameNumToTime, frameDurationOf, isTruthy, addAnimationGapThreshold,
      addAnimationFrameTime, List.range_succ, markerLE]

/-- C5 witness: the break equation at a concrete Capture marker with the
indicator absent, and the continue equation with it present. -/
theorem c5_stop_condition_witness :
    runMarkers ⟨true, false, true, 1⟩ (fun _ => false)
        [⟨0, MType.Capture, some 1, 0⟩] 0 = [Event.goToTimeAndAnimateForCapture 0] ∧
    runMarkers ⟨true, false, true, 1⟩ (fun _ => true)
        [⟨0, MType.Capture, some 1, 0⟩] 0 =
      Event.goToTimeAndAnimateForCapture 0 ::
        (([] : List Event) ++ [Event.capture 1 1] ++
          runMarkers ⟨true, false, true, 1⟩ (fun _ => true) [] 1) :=
  ⟨c5_stop_condition_before_capture.1 ⟨true, false, true, 1⟩ (fun _ => false)
      ⟨0, MType.Capture, some 1, 0⟩ [] 0 rfl rfl rfl,
    by
      have := c5_stop_condition_before_capture.2.1 ⟨true, false, true, 1⟩ (fun _ => true)
        ⟨0, MType.Capture, some 1, 0⟩ [] 0 rfl rfl rfl
      simpa using this⟩

/-- C6: marker ordering is a total order. Every built marker list carries the
strictly increasing creation-order ids 0, 1, 2, ...; the `(time, id)`
comparator is total, transitive, and two markers comparing below each other
agree on both time and id (so distinct markers are resolved consistently, the
id breaking ties only at equal time); the sort is a permutation of the build
and is pairwise ordered by the comparator, so in the executed (list) order no
marker precedes a lower-ordered one. -/
theorem c6_marker_order_total :
    (∀ (delayMs browserTime : ℚ) (f : ℕ → ℕ → ℚ) (N : ℕ) (maxD : Option ℚ),
      (buildMarkers delayMs browserTime f N maxD).map Marker.id =
        List.range (buildMarkers delayMs browserTime f N maxD).length) ∧
    (∀ a b : Marker, (markerLE a b || markerLE b a) = true) ∧
    (∀ a b : Marker, markerLE a b = true → markerLE b a = true →
      a.time = b.time ∧ a.id = b.id) ∧
    (∀ l : List Marker, (sortMarkers l).Perm l) ∧
    (∀ l : List Marker, (sortMarkers l).Pairwise (fun a b => markerLE a b = true)) := by
  refine ⟨?_, markerLE_total, markerLE_antisymm_key, ?_, ?_⟩
  · intro delayMs browserTime f N maxD
    rw [buildMarkers, assignIds, map_id_assignIdsFrom, length_assignIdsFrom,
      List.range_eq_range']
  · intro l
    exact List.perm_insertionSort _ l
  · intro l
    letI : IsTotal Marker (fun a b => markerLE a b = true) :=
      ⟨fun a b => by simpa [Bool.or_eq_true] using markerLE_total a b⟩
    letI : IsTrans Marker (fun a b => markerLE a b = true) := ⟨markerLE_trans⟩
    exact List.sorted_insertionSort _ l

/-- C6 witness: the comparator components at concrete markers and the sorted
permutation and pairwise order at a concrete build. -/
theorem c6_marker_order_witness :
    ((⟨0, MType.Capture, some 1, 0⟩ : Marker).time =
        (⟨0, MType.Capture, some 1, 0⟩ : Marker).time ∧
      (⟨0, MType.Capture, some 1, 0⟩ : Marker).id =
        (⟨0, MType.Capture, some 1, 0⟩ : Marker).id) ∧
    (sortMarkers (buildMarkers 0 0 (defaultFrameNumToTime 10) 3 none)).Pairwise
      (fun a b => markerLE a b = true) :=
  ⟨c6_marker_order_total.2.2.1 ⟨0, MType.Capture, some 1, 0⟩ ⟨0, MType.Capture, some 1, 0⟩
      (by simp [markerLE]) (by simp [markerLE]),
    c6_marker_order_total.2.2.2.2 (buildMarkers 0 0 (defaultFrameNumToTime 10) 3 none)⟩

/-- C7: the builder adds the extra `Only Animate` marker at 20 ms exactly
when there is a first capture time and it exceeds 100 ms: `gapMarkers` yields
the single 20 ms marker when `captureTimes` is nonempty with head above the
threshold, and nothing when the head is at most the threshold or the list is
empty; with no maximum animation-frame duration configured, that marker
(carrying the next creation id N) is the only `Only Animate` marker of the
whole build. Scenario A: frames = 3, fps = 10, start = 0 resolves to (3, 10),
capture times [0, 100, 200], and the build is exactly three Capture markers
with no `Only Animate` marker. -/
theorem c7_gap_threshold_marker :
    (∀ (t0 : ℚ) (rest : List ℚ), addAnimationGapThreshold < t0 →
      gapMarkers (t0 :: rest) = [⟨addAnimationFrameTime, MType.OnlyAnimate, none⟩]) ∧
    (∀ (t0 : ℚ) (rest : List ℚ), t0 ≤ addAnimationGapThreshold →
      gapMarkers (t0 :: rest) = []) ∧
    gapMarkers [] = [] ∧
    (∀ (delayMs browserTime : ℚ) (f : ℕ → ℕ → ℚ) (N : ℕ) (t0 : ℚ) (rest : List ℚ),
      captureTimes delayMs f N = t0 :: rest → addAnimationGapThreshold < t0 →
      (buildMarkers delayMs browserTime f N none).filter
          (fun m => m.type == MType.OnlyAnimate) =
        [⟨addAnimationFrameTime, MType.OnlyAnimate, none, N⟩]) ∧
    resolveFramesFps (some 3) none (some 10) = (3, 10) ∧
    captureTimes 0 (defaultFrameNumToTime 10) 3 = [0, 100, 200] ∧
    buildMarkers 0 0 (defaultFrameNumToTime 10) 3 none =
      [⟨0, MType.Capture, some 1, 0⟩, ⟨100, MType.Capture, some 2, 1⟩,
        ⟨200, MType.Capture, some 3, 2⟩] := by
  refine ⟨?_, ?_, rfl, ?_, ?_, ?_, ?_⟩
  · intro t0 rest hgt
    simp [gapMarkers, hgt]
  · intro t0 rest hle
    simp [gapMarkers, not_lt.mpr hle]
  · intro delayMs browserTime f N t0 rest hct hgt
    have hgap : gapMarkers (t0 :: rest) = [⟨addAnimationFrameTime, MType.OnlyAnimate, none⟩] := by
      simp [gapMarkers, hgt]
    rw [buildMarkers, assignIds, buildMarkerBases, subdividePass_none, List.append_nil, hct,
      assignIdsFrom_append, List.filter_append,
      filter_assignIdsFrom_of_other_type _ _ _ _
        (captureMarkers_type delayMs browserTime f N) (by decide),
      hgap,
      filter_assignIdsFrom_of_type _ _ MType.OnlyAnimate
        (by intro m hm; simp at hm; subst hm; rfl),
      length_captureMarkers]
    simp [assignIdsFrom]
  · norm_num [resolveFramesFps, isTruthy]
  · norm_num [captureTimes, defaultFrameNumToTime, frameDurationOf, List.range_succ]
  · norm_num [buildMarkers, buildMarkerBases, captureMarkers, captureTimes, gapMarkers,
      subdividePass, assignIds, assignIdsFrom, defaultFrameNumToTime, frameDurationOf, isTruthy,
      addAnimationGapThreshold, addAnimationFrameTime, List.range_succ]

/-- C7 witness: the threshold rule at concrete inputs — head 150 > 100 yields
the 20 ms marker, head 100 yields nothing, and the builder-level form at
delay 150 with one frame. -/
theorem c7_gap_threshold_witness :
    gapMarkers [(150 : ℚ)] = [⟨addAnimationFrameTime, MType.OnlyAnimate, none⟩] ∧
    gapMarkers [(100 : ℚ)] = [] ∧
    (buildMarkers 150 0 (defaultFrameNumToTime 60) 1 none).filter
        (fun m => m.type == MType.OnlyAnimate) =
      [⟨addAnimationFrameTime, MType.OnlyAnimate, none, 1⟩] :=
  ⟨c7_gap_threshold_marker.1 150 [] (by norm_num [addAnimationGapThreshold]),
    c7_gap_threshold_marker.2.1 100 [] (by norm_num [addAnimationGapThreshold]),
    c7_gap_threshold_marker.2.2.2.1 150 0 (defaultFrameNumToTime 60) 1 150 []
      (by norm_num [captureTimes, defaultFrameNumToTime, frameDurationOf, List.range_succ])
      (by norm_num [addAnimationGapThreshold])⟩

/-- C8: resolution of the frame count and fps. A (truthy) explicit `frames`
is the frame count, with fps taken as given, else `frames / duration` when
`duration` is given, else 60; with `frames` absent, fps defaults to 60 when
unset and the count is `duration * fps` with `duration` defaulting to 5 — so
a fully default configuration yields 300 frames at 60 fps. The default
`frameNumToTime` maps frame `i` to `(i - 1) * (1000 / fps)`. -/
theorem c8_frames_fps_resolution :
    (∀ frames duration fps : Option ℚ, isTruthy frames = true → isTruthy fps = true →
      resolveFramesFps frames duration fps = (frames.getD 0, fps.getD 0)) ∧
    (∀ frames duration fps : Option ℚ, isTruthy frames = true → isTruthy fps = false →
      isTruthy duration = true →
      resolveFramesFps frames duration fps =
        (frames.getD 0, frames.getD 0 / duration.getD 0)) ∧
    (∀ frames duration fps : Option ℚ, isTruthy frames = true → isTruthy fps = false →
      isTruthy duration = false →
      resolveFramesFps frames duration fps = (frames.getD 0, defaultFPS)) ∧
    (∀ frames duration fps : Option ℚ, isTruthy frames = false →
      resolveFramesFps frames duration fps =
        ((if isTruthy duration then duration.getD 0 else defaultDuration) *
            (if isTruthy fps then fps.getD 0 else defaultFPS),
          if isTruthy fps then fps.getD 0 else defaultFPS)) ∧
    resolveFramesFps none none none = (300, 60) ∧
    (∀ (fps : ℚ) (i total : ℕ),
      defaultFrameNumToTime fps i total = ((i : ℚ) - 1) * (1000 / fps)) := by
  refine ⟨?_, ?_, ?_, ?_, ?_, fun _ _ _ => rfl⟩
  · intro frames duration fps hf hp
    simp [resolveFramesFps, hf, hp]
  · intro frames duration fps hf hp hd
    simp [resolveFramesFps, hf, hp, hd]
  · intro frames duration fps hf hp hd
    simp [resolveFramesFps, hf, hp, hd]
  · intro frames duration fps hf
    by_cases hd : isTruthy duration <;> by_cases hp : isTruthy fps <;>
      simp [resolveFramesFps, hf, hd, hp]
  · norm_num [resolveFramesFps, isTruthy, defaultDuration, defaultFPS]

/-- C8 witness: frames = 10 with duration = 2 and no fps resolves to
(10, 5); absent frames with fps = 30 and no duration resolves to (150, 30). -/
theorem c8_frames_fps_witness :
    resolveFramesFps (some 10) (some 2) none = (10, 5) ∧
    resolveFramesFps none none (some 30) = (5 * 30, 30) := by
  constructor
  · have := c8_frames_fps_resolution.2.1 (some 10) (some 2) none
      (by norm_num [isTruthy]) (by norm_num [isTruthy]) (by norm_num [isTruthy])
    rw [this]
    norm_num
  · have := c8_frames_fps_resolution.2.2.2.1 none none (some 30) (by norm_num [isTruthy])
    rw [this]
    norm_num [isTruthy, defaultDuration]

/-- C9 counterexample: the claim says every caught error "results in a clean
(or best-effort) resource release". It does not: `browser.close()` is the
LAST statement of the `try` block and the `catch` only logs, so on any error
no release step runs at all. Concretely: viewport and all hooks configured,
one Capture marker, and a fault at step 3 (the `overwriteRandom` injection):
the error is caught and logged and the promise resolves, the run's script
does contain the `browser.close()` step, yet the performed actions are only
the first three — no `closeBrowser` among them, so no resource release (not
even an attempted one) results from the error. -/
theorem c9_release_claim_fails :
    (timesnapRun (fun k => if k = 3 then some "boom" else none)
        (runScript true true true true ⟨false, true, true, 1⟩ (fun _ => true) []
          [⟨0, MType.Capture, some 1, 0⟩])).loggedErrors = ["boom"] ∧
    (timesnapRun (fun k => if k = 3 then some "boom" else none)
        (runScript true true true true ⟨false, true, true, 1⟩ (fun _ => true) []
          [⟨0, MType.Capture, some 1, 0⟩])).performed =
      [Action.getBrowser, Action.newPage, Action.setViewport] ∧
    Action.closeBrowser ∉
      [Action.getBrowser, Action.newPage, Action.setViewport] ∧
    Action.closeBrowser ∈
      runScript true true true true ⟨false, true, true, 1⟩ (fun _ => true) []
        [⟨0, MType.Capture, some 1, 0⟩] := by
  refine ⟨?_, ?_, by simp, by simp [runScript]⟩
  · norm_num [timesnapRun, execActions, runScript, runScriptBody, loopActions]
  · norm_num [timesnapRun, execActions, runScript, runScriptBody, loopActions]

/-- C9 (amended): every error thrown at any point of the run is caught by
the single top-level handler, logged via the configured logger, and the
exported function resolves normally rather than rejecting; exactly the steps
before the failing one were performed, so no already-written frame output is
rolled back. However, NO resource release results from an error: the final
`browser.close()` is skipped on every error path (the catch only logs); the
browser is closed only by an error-free run, as its last step. -/
theorem c9_caught_logged_no_release (fault : ℕ → Option String)
    (hasViewport hasPreparePage hasBeforeCapture hasAfterCapture : Bool)
    (cfg : LoopConfig) (present : ℕ → Bool) (primingAdvances : List ℚ)
    (markers : List Marker) (script : List Action)
    (hs : script = runScript hasViewport hasPreparePage hasBeforeCapture hasAfterCapture
      cfg present primingAdvances markers) :
    (timesnapRun fault script).promiseResolved = true ∧
    (∀ n e, n < script.length → (∀ j, j < n → fault j = none) → fault n = some e →
      (timesnapRun fault script).loggedErrors = [e] ∧
      (timesnapRun fault script).performed = script.take n ∧
      framesWritten (timesnapRun fault script).performed = framesWritten (script.take n) ∧
      Action.closeBrowser ∉ (timesnapRun fault script).performed) ∧
    ((∀ j, j < script.length → fault j = none) →
      (timesnapRun fault script).loggedErrors = [] ∧
      (timesnapRun fault script).performed = script) ∧
    script.getLast? = some Action.closeBrowser := by
  refine ⟨rfl, ?_, ?_, ?_⟩
  · intro n e hn hnone hf
    have hexec := execActions_first_fault fault e script 0 n hn
      (fun j hj => by simpa using hnone j hj) (by simpa using hf)
    refine ⟨by simp [timesnapRun, hexec], by simp [timesnapRun, hexec],
      by simp [timesnapRun, hexec], ?_⟩
    have hperf : (timesnapRun fault script).performed = script.take n := by
      simp [timesnapRun, hexec]
    rw [hperf, hs, runScript]
    have hlen : n ≤ (runScriptBody hasViewport hasPreparePage hasBeforeCapture
        hasAfterCapture cfg present primingAdvances markers).length := by
      rw [hs, runScript, List.length_append, List.length_singleton] at hn
      omega
    rw [List.take_append_eq_append_take, Nat.sub_eq_zero_of_le hlen, List.take_zero,
      List.append_nil]
    intro hmem
    exact closeBrowser_not_mem_runScriptBody hasViewport hasPreparePage hasBeforeCapture
      hasAfterCapture cfg present primingAdvances markers (List.take_subset n _ hmem)
  · intro hnone
    have hexec := execActions_no_fault fault script 0 (fun j hj => by simpa using hnone j hj)
    exact ⟨by simp [timesnapRun, hexec], by simp [timesnapRun, hexec]⟩
  · rw [hs, runScript]
    exact List.getLast?_concat _

/-- C9 witness: the amended theorem at the concrete faulted run of the
counterexample's configuration — fault at step 3: promise resolves, the
error is logged, the performed actions are the first three steps, and no
`closeBrowser` is among them. -/
theorem c9_caught_logged_no_release_witness :
    (timesnapRun (fun k => if k = 3 then some "boom" else none)
        (runScript true true true true ⟨false, true, true, 1⟩ (fun _ => true) []
          [⟨0, MType.Capture, some 1, 0⟩])).promiseResolved = true ∧
    (timesnapRun (fun k => if k = 3 then some "boom" else none)
        (runScript true true true true ⟨false, true, true, 1⟩ (fun _ => true) []
          [⟨0, MType.Capture, some 1, 0⟩])).loggedErrors = ["boom"] ∧
    (timesnapRun (fun k => if k = 3 then some "boom" else none)
        (runScript true true true true ⟨false, true, true, 1⟩ (fun _ => true) []
          [⟨0, MType.Capture, some 1, 0⟩])).performed =
      (runScript true true true true ⟨false, true, true, 1⟩ (fun _ => true) []
        [⟨0, MType.Capture, some 1, 0⟩]).take 3 ∧
    Action.closeBrowser ∉
      (timesnapRun (fun k => if k = 3 then some "boom" else none)
        (runScript true true true true ⟨false, true, true, 1⟩ (fun _ => true) []
          [⟨0, MType.Capture, some 1, 0⟩])).performed := by
  have h := c9_caught_logged_no_release (fun k => if k = 3 then some "boom" else none)
    true true true true ⟨false, true, true, 1⟩ (fun _ => true) []
    [⟨0, MType.Capture, some 1, 0⟩] _ rfl
  have h3 := h.2.1 3 "boom"
    (by norm_num [runScript, runScriptBody, loopActions])
    (by intro j hj; interval_cases j <;> simp)
    (by simp)
  exact ⟨h.1, h3.1, h3.2.1, h3.2.2.2⟩

/-- C10: the subdivision fold starts with `lastMarkerTime = 0`, so the first
capture time `t1` is itself gap-bounded against virtual time 0: when the
configured D is nonzero the pass begins with `subdivideStep D 0 t1`, which
for `t1 > D` holds exactly `⌈t1/D⌉ - 1` `Only Animate` markers at
`(i+1)·t1/⌈t1/D⌉`, all strictly between 0 and `t1`; for `t1 = 0` — the case
of the default mapping with no delay, whose first capture time is 0 — it
inserts nothing. -/
theorem c10_initial_gap_bounded :
    (∀ (D t1 : ℚ) (rest : List ℚ), D ≠ 0 →
      subdividePass (some D) (t1 :: rest) 0 =
        subdivideStep D 0 t1 ++ subdividePass (some D) rest t1) ∧
    (∀ D t1 : ℚ, 0 < D → D < t1 →
      ((subdivideStep D 0 t1).length : ℤ) = ⌈t1 / D⌉ - 1 ∧
      (∀ i : ℕ, i + 1 < (⌈t1 / D⌉).toNat →
        (subdivideStep D 0 t1)[i]? =
          some ⟨((i : ℚ) + 1) * t1 / ((⌈t1 / D⌉ : ℤ) : ℚ), MType.OnlyAnimate, none⟩) ∧
      (∀ m ∈ subdivideStep D 0 t1, 0 < m.time ∧ m.time < t1)) ∧
    (∀ D : ℚ, subdivideStep D 0 0 = []) ∧
    (∀ (fps : ℚ) (N : ℕ), 0 < N →
      (captureTimes 0 (defaultFrameNumToTime fps) N).head? = some 0) := by
  refine ⟨?_, ?_, ?_, ?_⟩
  · intro D t1 rest hD
    exact subdividePass_cons D hD t1 rest 0
  · intro D t1 hD ht
    have hn2 : (2 : ℤ) ≤ ⌈t1 / D⌉ := by
      have h1 : (1 : ℚ) < t1 / D := (one_lt_div hD).mpr ht
      have := Int.lt_ceil.mpr (show ((1 : ℤ) : ℚ) < t1 / D by exact_mod_cast h1)
      omega
    refine ⟨?_, ?_, ?_⟩
    · rw [length_subdivideStep, sub_zero]
      omega
    · intro i hi
      have := getElem?_subdivideStep D 0 t1 i (by rwa [sub_zero])
      simpa only [sub_zero, zero_add] using this
    · exact subdivideStep_time_between D 0 t1 hD
  · intro D
    simp [subdivideStep]
  · intro fps N hN
    cases N with
    | zero => omega
    | succ m =>
      simp [captureTimes, List.range_succ_eq_map, defaultFrameNumToTime, frameDurationOf]

/-- C10 witness: the pass head at D = 500, the shape at t1 = 1000 (one
marker), and the zero head capture time of a default 5-frame timeline. -/
theorem c10_initial_gap_witness :
    subdividePass (some 500) ([1000] : List ℚ) 0 =
      subdivideStep 500 0 1000 ++ subdividePass (some 500) [] 1000 ∧
    ((subdivideStep (500 : ℚ) 0 1000).length : ℤ) = ⌈(1000 : ℚ) / 500⌉ - 1 ∧
    (captureTimes 0 (defaultFrameNumToTime 60) 5).head? = some 0 :=
  ⟨c10_initial_gap_bounded.1 500 1000 [] (by norm_num),
    (c10_initial_gap_bounded.2.1 500 1000 (by norm_num) (by norm_num)).1,
    c10_initial_gap_bounded.2.2.2 60 5 (by norm_num)⟩

end Timesnap
